import Mathlib

/-!
Shallow embedding of `deployment-python/cleanup.py` (the teardown orchestration):
the resource locator `find_cloudfront_for_s3_bucket`, the confirmation gate
`confirm_deletion`, the CDN teardown state machine `delete_cloudfront_distribution`,
the bucket emptier `empty_s3_bucket`, the bucket deleter `delete_s3_bucket`, and
the orchestrator `main`.  External collaborators (S3, CloudFront, the operator,
the wall clock) are modelled as environment records supplying the response of
every remote call the script makes; the embedding replays the script's control
flow over those responses and additionally records a trace of the calls issued.
-/

namespace Cleanup

/-! ## Resource locator: `find_cloudfront_for_s3_bucket` -/

/-- One origin entry of a distribution config (`origin.get("DomainName")`). -/
structure Origin where
  domainName : String
deriving DecidableEq, Repr

/-- Errors surfaced by the CloudFront collaborator during the search.
The script only distinguishes ClientError from success here, so a unit
payload suffices. -/
abbrev FindErr := Unit

/-- Environment of the search: the paginated `list_distributions` listing
(each page either lacks the `DistributionList`/`Items` keys, modelled as
`none`, or carries the summaries' ids), and the per-distribution
`get_distribution_config` response (origins list, which may be absent, and
the ETag). A listing that raises is `Except.error`. -/
structure FindEnv where
  listing : Except FindErr (List (Option (List String)))
  fetchConfig : String → Except FindErr (Option (List Origin) × String)

/-- `target_origin_domain = f"{bucket_name}.s3-website-{region}.amazonaws.com"`. -/
def targetOriginDomain (bucketName region : String) : String :=
  bucketName ++ ".s3-website-" ++ region ++ ".amazonaws.com"

/-- Whether any origin of a fetched distribution config equals the target
domain (the inner `for origin in ...: if origin.get("DomainName") == ...`
loop; the script breaks out after the first matching origin, and the action
taken does not depend on which origin matched). -/
def distMatches (target : String) (origins? : Option (List Origin)) : Bool :=
  match origins? with
  | none => false
  | some os => os.any (fun o => o.domainName == target)

/-- The outer loop over distribution summaries: `found_distribution` and
`distribution_count` are the two pieces of mutable state; a second match
returns `None` for the whole search (`return None # Abort if ambiguous`). -/
def findLoop (target : String) (fetch : String → Except FindErr (Option (List Origin) × String)) :
    List String → Option (String × String) → Nat → Option (String × String)
  | [], found, count => if count = 1 then found else none
  | d :: rest, found, count =>
    match fetch d with
    | .error _ => findLoop target fetch rest found count
    | .ok (origins?, etag) =>
      if distMatches target origins? then
        if count = 0 then findLoop target fetch rest (some (d, etag)) 1
        else none
      else findLoop target fetch rest found count

/-- Flattening of the listing pages; pages without the expected keys are
skipped (`continue # Skip empty pages or lists`). -/
def pageIds (pages : List (Option (List String))) : List String :=
  (pages.filterMap (fun p => p)).flatten

/-- `find_cloudfront_for_s3_bucket(bucket_name, region, cf_client)`:
returns the `(Id, ETag)` pair of the unique matching distribution, `none`
for zero matches, `none` on a second match (ambiguity), and `none` when the
listing itself raises. -/
def find_cloudfront_for_s3_bucket (bucketName region : String) (env : FindEnv) :
    Option (String × String) :=
  match env.listing with
  | .error _ => none
  | .ok pages =>
    findLoop (targetOriginDomain bucketName region) env.fetchConfig (pageIds pages) none 0

/-! ## Confirmation gate: `confirm_deletion` -/

/-- Python's `str.strip()`: drop leading and trailing whitespace.  Spelled
out over the character list so that it evaluates by kernel reduction. -/
def pyStrip (s : String) : String :=
  ⟨((s.data.dropWhile Char.isWhitespace).reverse.dropWhile Char.isWhitespace).reverse⟩

/-- Python's `str.lower()` (ASCII case folding, which is all the script's
comparison needs). -/
def pyLower (s : String) : String :=
  ⟨s.data.map Char.toLower⟩

/-- `confirm_deletion(bucket_name, distribution_id)`: the operator's line is
`input(...).strip().lower()` compared against `"yes"`; a closed input stream
(`EOFError`, modelled as `none`) refuses.  The two identifier arguments are
display-only. -/
def confirm_deletion (bucketName : String) (distributionId : Option String)
    (inp : Option String) : Bool :=
  match inp with
  | none => false
  | some line => pyLower (pyStrip line) == "yes"

/-! ## CDN teardown state machine: `delete_cloudfront_distribution` -/

/-- The CloudFront ClientError codes the script branches on, plus a bucket
for every other code. -/
inductive CFErr where
  | noSuchDistribution
  | distributionNotDisabled
  | illegalUpdate
  | invalidIfMatchVersion
  | otherErr
deriving DecidableEq, Repr

/-- One CloudFront API call issued by the state machine, with the
concurrency-control token (`IfMatch`) for the mutating calls. -/
inductive CFCall where
  | getDistributionConfig (distId : String)
  | updateDistribution (distId : String) (ifMatch : String)
  | getDistribution (distId : String)
  | deleteDistribution (distId : String) (ifMatch : String)
deriving DecidableEq, Repr

/-- Environment of one run of `delete_cloudfront_distribution`: the response
of the initial `get_distribution_config` (the `Enabled` flag of the config
plus the ETag), of the `update_distribution` disable request (the new ETag),
of the `i`-th `get_distribution` status poll during the disable wait
(status string, or ClientError), of `delete_distribution`, and of the `i`-th
`get_distribution` poll during the deletion wait (`ok` means the
distribution still exists).  `disableElapsed i` and `deleteElapsed i` give
the wall-clock seconds elapsed (`time.time() - start`) observed at the
`i`-th poll of the respective loop. -/
structure CFEnv where
  configResp : Except CFErr (Bool × String)
  updateResp : Except CFErr String
  disablePoll : Nat → Except CFErr String
  disableElapsed : Nat → Nat
  deleteResp : Except CFErr Unit
  deletePoll : Nat → Except CFErr Unit
  deleteElapsed : Nat → Nat

/-- `CLOUDFRONT_TIMEOUT_SECONDS` -/
def CLOUDFRONT_TIMEOUT_SECONDS : Nat := 600

/-- The outer `except ClientError` handler of `delete_cloudfront_distribution`:
`NoSuchDistribution` is success (already gone); `DistributionNotDisabled`,
`IllegalUpdate`, `InvalidIfMatchVersion` and everything else are failure. -/
def cfOuterErrSuccess (e : CFErr) : Bool :=
  e == CFErr.noSuchDistribution

/-- The custom wait loop for disablement: poll `get_distribution`; a
ClientError fails; status `Deployed` succeeds; otherwise, if the elapsed
time exceeds the timeout, fail; else sleep and poll again.  The `fuel`
argument bounds how many iterations the embedding unrolls; `none` means the
bound was hit before the loop decided. -/
def disableWaitLoop (env : CFEnv) (distId : String) :
    Nat → Nat → Option Bool × List CFCall
  | 0, _ => (none, [])
  | fuel + 1, i =>
    match env.disablePoll i with
    | .error _ => (some false, [CFCall.getDistribution distId])
    | .ok status =>
      if status == "Deployed" then (some true, [CFCall.getDistribution distId])
      else if CLOUDFRONT_TIMEOUT_SECONDS < env.disableElapsed i then
        (some false, [CFCall.getDistribution distId])
      else
        let r := disableWaitLoop env distId fuel (i + 1)
        (r.1, CFCall.getDistribution distId :: r.2)

/-- The deletion wait loop: `get_distribution` succeeding means the
distribution still exists (keep polling, subject to the same timeout);
`NoSuchDistribution` means it is gone (success); any other ClientError
fails. -/
def deleteWaitLoop (env : CFEnv) (distId : String) :
    Nat → Nat → Option Bool × List CFCall
  | 0, _ => (none, [])
  | fuel + 1, i =>
    match env.deletePoll i with
    | .ok _ =>
      if CLOUDFRONT_TIMEOUT_SECONDS < env.deleteElapsed i then
        (some false, [CFCall.getDistribution distId])
      else
        let r := deleteWaitLoop env distId fuel (i + 1)
        (r.1, CFCall.getDistribution distId :: r.2)
    | .error e =>
      if e == CFErr.noSuchDistribution then (some true, [CFCall.getDistribution distId])
      else (some false, [CFCall.getDistribution distId])

/-- Step 2 and step 3 of the state machine: issue `delete_distribution`
with the latest known ETag, then run the deletion wait loop.  A ClientError
from the delete call itself goes to the outer handler. -/
def deletePhase (env : CFEnv) (distId etag : String) (fuel : Nat) :
    Option Bool × List CFCall :=
  match env.deleteResp with
  | .error e => (some (cfOuterErrSuccess e), [CFCall.deleteDistribution distId etag])
  | .ok _ =>
    let r := deleteWaitLoop env distId fuel 0
    (r.1, CFCall.deleteDistribution distId etag :: r.2)

/-- `delete_cloudfront_distribution(distribution_id, etag, cf_client)`.
The `etag` argument is the token discovered by the locator; the script
overwrites it with the ETag of a fresh `get_distribution_config` before any
use.  If the config is already disabled, it proceeds directly to deletion
with that fresh ETag; otherwise it issues the disable update, keeps the
ETag returned by the update response, runs the disable wait loop, and then
deletes using that kept ETag. -/
def delete_cloudfront_distribution (distId etag : String) (env : CFEnv) (fuel : Nat) :
    Option Bool × List CFCall :=
  match env.configResp with
  | .error e => (some (cfOuterErrSuccess e), [CFCall.getDistributionConfig distId])
  | .ok (enabled, currentEtag) =>
    if enabled then
      match env.updateResp with
      | .error e =>
        (some (cfOuterErrSuccess e),
         [CFCall.getDistributionConfig distId, CFCall.updateDistribution distId currentEtag])
      | .ok newEtag =>
        match disableWaitLoop env distId fuel 0 with
        | (some true, tr) =>
          let r := deletePhase env distId newEtag fuel
          (r.1, CFCall.getDistributionConfig distId ::
                CFCall.updateDistribution distId currentEtag :: (tr ++ r.2))
        | (some false, tr) =>
          (some false, CFCall.getDistributionConfig distId ::
                       CFCall.updateDistribution distId currentEtag :: tr)
        | (none, tr) =>
          (none, CFCall.getDistributionConfig distId ::
                 CFCall.updateDistribution distId currentEtag :: tr)
    else
      let r := deletePhase env distId currentEtag fuel
      (r.1, CFCall.getDistributionConfig distId :: r.2)

/-! ## Bucket emptier: `empty_s3_bucket` -/

/-- The S3 ClientError codes the script branches on. -/
inductive S3Err where
  | noSuchBucket
  | otherErr
deriving DecidableEq, Repr

/-- `{"Key": ..., "VersionId": ...}` — one object version or delete marker. -/
structure Key where
  key : String
  versionId : String
deriving DecidableEq, Repr

/-- One page of the `list_object_versions` paginator: the `Versions` and
`DeleteMarkers` entries (absent keys are empty lists) and the wall-clock
seconds the page fetch took. -/
structure S3Page where
  versions : List Key
  markers : List Key
  dur : Nat
deriving DecidableEq, Repr

/-- `S3_DELETE_TIMEOUT_SECONDS` -/
def S3_DELETE_TIMEOUT_SECONDS : Nat := 300

/-- Environment of one run of `empty_s3_bucket`: the `get_bucket_versioning`
response, the seconds elapsed before the first page is processed (the
versioning call and pagination start), the pages (a page slot may raise a
ClientError), the `delete_objects` response for the `k`-th bulk delete call
of the run (its list of per-object `Errors` entries, `[]` when the key is
absent or empty), and the seconds the `k`-th bulk delete call took. -/
structure S3Env where
  versioningResp : Except S3Err String
  preDur : Nat
  pages : List (Except S3Err S3Page)
  batchResp : Nat → Except S3Err (List String)
  batchDur : Nat → Nat

/-- The mutable state of `empty_s3_bucket`'s loop: the accumulated
`objects_to_delete`, the elapsed wall-clock seconds (`time.time() -
start_time`), the number of bulk delete calls issued so far, and the trace
of issued bulk delete batches in order. -/
structure EmptyState where
  pending : List Key
  elapsed : Nat
  bIdx : Nat
  batches : List (List Key)
deriving DecidableEq, Repr

/-- The `while len(objects_to_delete) >= 1000` loop: slice off exactly 1000
keys, issue the bulk delete, fail the whole operation on per-object errors,
fail if the wall-clock budget is exceeded at this check, else continue.
`Except.error` carries the early-exit result `(success, batches, elapsed)`;
`Except.ok` is the state after the loop exits normally.  The `fuel`
argument only serves to make the recursion structural: every iteration
consumes at least 1000 pending keys, so the pending length (passed by
`drainAll`) always suffices and the zero-fuel case is reached only with an
empty accumulation, where the loop would exit anyway. -/
def drain (env : S3Env) : Nat → EmptyState → Except (Bool × List (List Key) × Nat) EmptyState
  | 0, s => .ok s
  | fuel + 1, s =>
    if 1000 ≤ s.pending.length then
      match env.batchResp s.bIdx with
      | .error e =>
        .error (e == S3Err.noSuchBucket, s.batches ++ [s.pending.take 1000],
                s.elapsed + env.batchDur s.bIdx)
      | .ok errs =>
        if errs ≠ [] then
          .error (false, s.batches ++ [s.pending.take 1000], s.elapsed + env.batchDur s.bIdx)
        else if S3_DELETE_TIMEOUT_SECONDS < s.elapsed + env.batchDur s.bIdx then
          .error (false, s.batches ++ [s.pending.take 1000], s.elapsed + env.batchDur s.bIdx)
        else
          drain env fuel ⟨s.pending.drop 1000, s.elapsed + env.batchDur s.bIdx,
                          s.bIdx + 1, s.batches ++ [s.pending.take 1000]⟩
    else .ok s

/-- The in-loop batching applied to the current accumulation. -/
def drainAll (env : S3Env) (s : EmptyState) : Except (Bool × List (List Key) × Nat) EmptyState :=
  drain env s.pending.length s

/-- The `for page in pages` loop: append the page's versions then its delete
markers to the accumulation, then run the in-loop batching.  A ClientError
while paginating goes to the outer handler (success only for
`NoSuchBucket`). -/
def pagesLoop (env : S3Env) :
    List (Except S3Err S3Page) → EmptyState →
    Except (Bool × List (List Key) × Nat) EmptyState
  | [], s => .ok s
  | p :: rest, s =>
    match p with
    | .error e => .error (e == S3Err.noSuchBucket, s.batches, s.elapsed)
    | .ok pg =>
      match drainAll env ⟨s.pending ++ (pg.versions ++ pg.markers), s.elapsed + pg.dur,
                          s.bIdx, s.batches⟩ with
      | .error r => .error r
      | .ok s2 => pagesLoop env rest s2

/-- `empty_s3_bucket(bucket_name, s3_client)`: check versioning (a
`NoSuchBucket` ClientError anywhere is treated as already emptied),
enumerate pages while batching deletes of 1000, then delete the remaining
partial batch (with error check but no timeout check).  Returns the
success flag, the trace of issued bulk delete batches, and the final
elapsed seconds. -/
def empty_s3_bucket (env : S3Env) : Bool × List (List Key) × Nat :=
  match env.versioningResp with
  | .error e => (e == S3Err.noSuchBucket, [], env.preDur)
  | .ok _ =>
    match pagesLoop env env.pages ⟨[], env.preDur, 0, []⟩ with
    | .error r => r
    | .ok s =>
      if s.pending ≠ [] then
        let batches2 := s.batches ++ [s.pending]
        let elapsed2 := s.elapsed + env.batchDur s.bIdx
        match env.batchResp s.bIdx with
        | .error e => (e == S3Err.noSuchBucket, batches2, elapsed2)
        | .ok errs => if errs ≠ [] then (false, batches2, elapsed2) else (true, batches2, elapsed2)
      else (true, s.batches, s.elapsed)

/-! ## Bucket deleter: `delete_s3_bucket` -/

/-- Environment of `delete_s3_bucket`: the `delete_bucket` response and
whether the `bucket_not_exists` waiter confirms non-existence within its
bounded wait (a `WaiterError` is `false`). -/
structure DelEnv where
  deleteResp : Except S3Err Unit
  waiterOk : Bool

/-- `delete_s3_bucket(bucket_name, s3_client)`: issue the deletion, then
wait for confirmed non-existence; `NoSuchBucket` at call time is success
(already gone); every other ClientError, including `BucketNotEmpty`, and
any waiter failure, is failure. -/
def delete_s3_bucket (env : DelEnv) : Bool :=
  match env.deleteResp with
  | .error e => e == S3Err.noSuchBucket
  | .ok _ => env.waiterOk

/-! ## Orchestrator: `main` -/

/-- One teardown stage invocation recorded by the orchestrator, with its
result: the CDN stage (`delete_cloudfront_distribution`), the emptying
stage (`empty_s3_bucket`) and the bucket deletion stage
(`delete_s3_bucket`). -/
inductive StageCall where
  | cfStage (ok : Bool)
  | emptyStage (ok : Bool)
  | deleteStage (ok : Bool)
deriving DecidableEq, Repr

/-- Environment of one run of `main`: the operator's bucket-name line, the
`get_s3_bucket_region` outcome (`none` on failure), the operator's manual
region line used when the lookup fails or is empty, the search environment,
the operator's confirmation line (`none` models `EOFError`), and the
environments and loop bound of the three deletion stages. -/
structure MainEnv where
  bucketNameInput : String
  regionLookup : Option String
  regionInput : String
  findEnv : FindEnv
  confirmInput : Option String
  cfEnv : CFEnv
  cfFuel : Nat
  s3Env : S3Env
  delEnv : DelEnv

/-- The stripped bucket name (`input(...).strip()`). -/
def resolvedBucket (env : MainEnv) : String :=
  pyStrip env.bucketNameInput

/-- The region after lookup and, when the lookup fails or yields a falsy
string, the stripped manual entry.  The empty string means still
unresolved (the script exits). -/
def resolvedRegion (env : MainEnv) : String :=
  match env.regionLookup with
  | some r => if r = "" then pyStrip env.regionInput else r
  | none => pyStrip env.regionInput

/-- The locator result computed by `main` (step 3). -/
def mainFind (env : MainEnv) : Option (String × String) :=
  find_cloudfront_for_s3_bucket (resolvedBucket env) (resolvedRegion env) env.findEnv

/-- The CDN stage run by `main` when a distribution was found; `(some true,
[])` when there is nothing it would be called on (statement helper). -/
def mainCF (env : MainEnv) : Option Bool × List CFCall :=
  match mainFind env with
  | some (distId, distEtag) => delete_cloudfront_distribution distId distEtag env.cfEnv env.cfFuel
  | none => (some true, [])

/-- Steps 6 and 7 of `main`: empty the bucket; on failure exit 1 without
deleting the bucket; on success delete the bucket and exit 0 only when it
succeeded too. -/
def bucketPhase (env : MainEnv) (pre : List StageCall) : Nat × List StageCall :=
  let er := empty_s3_bucket env.s3Env
  if er.1 then
    let d := delete_s3_bucket env.delEnv
    (if d then 0 else 1, pre ++ [StageCall.emptyStage true, StageCall.deleteStage d])
  else (1, pre ++ [StageCall.emptyStage false])

/-- `main()`: read and strip the bucket name (empty exits 1); resolve the
region (still empty exits 1); locate the distribution; confirm (refusal
exits 0 before any deletion stage); if a distribution id and etag were both
found truthy, run the CDN stage and stop with exit 1 on its failure;
otherwise skip it as trivially successful; then run the bucket phase.  The
result is the process exit code and the ordered trace of deletion stages
actually invoked; `none` means the CDN stage's loop bound was hit. -/
def main (env : MainEnv) : Option (Nat × List StageCall) :=
  if resolvedBucket env = "" then some (1, [])
  else if resolvedRegion env = "" then some (1, [])
  else if confirm_deletion (resolvedBucket env) ((mainFind env).map Prod.fst) env.confirmInput then
    match mainFind env with
    | some (distId, distEtag) =>
      if distId = "" ∨ distEtag = "" then some (bucketPhase env [])
      else
        match (delete_cloudfront_distribution distId distEtag env.cfEnv env.cfFuel).1 with
        | none => none
        | some false => some (1, [StageCall.cfStage false])
        | some true => some (bucketPhase env [StageCall.cfStage true])
    | none => some (bucketPhase env [])
  else some (0, [])

/-! ## Derived notions used in the statements -/

/-- The object-version keys contributed by one page slot, in discovery
order (versions first, then delete markers, as the script appends them). -/
def pageKeys : Except S3Err S3Page → List Key
  | .error _ => []
  | .ok pg => pg.versions ++ pg.markers

/-- All keys the enumeration yields, in discovery order. -/
def allKeys (env : S3Env) : List Key :=
  (env.pages.map pageKeys).flatten

/-- The consecutive full 1000-key slices of a key stream. -/
def fullChunks (l : List Key) : List (List Key) :=
  if 1000 ≤ l.length then l.take 1000 :: fullChunks (l.drop 1000) else []
termination_by l.length
decreasing_by simp only [List.length_drop]; omega

/-- What remains of a key stream after removing the full 1000-key slices. -/
def chunkRem (l : List Key) : List Key :=
  if 1000 ≤ l.length then chunkRem (l.drop 1000) else l
termination_by l.length
decreasing_by simp only [List.length_drop]; omega

/-- Greedy batching of a key stream: the full 1000-key slices in order,
followed by the non-empty remainder if any. -/
def chunks1000 (l : List Key) : List (List Key) :=
  fullChunks l ++ (if chunkRem l = [] then [] else [chunkRem l])

/-- Whether the config fetch for distribution `d` succeeds and carries an
origin equal to the target domain — the condition under which the search
loop counts `d` as a match. -/
def fetchMatches (target : String)
    (fetch : String → Except FindErr (Option (List Origin) × String)) (d : String) : Bool :=
  match fetch d with
  | .error _ => false
  | .ok (origins?, _) => distMatches target origins?

/-- How many listed distributions match the target origin domain. -/
def matchCount (target : String)
    (fetch : String → Except FindErr (Option (List Origin) × String)) (ids : List String) : Nat :=
  (ids.filter (fetchMatches target fetch)).length

/-- Whether a CloudFront call is a status poll (`get_distribution`). -/
def isPollCall : CFCall → Bool
  | .getDistribution _ => true
  | _ => false

/-- Whether a CloudFront call mutates the distribution (and therefore
requires a concurrency-control token). -/
def isMutatingCall : CFCall → Bool
  | .updateDistribution _ _ => true
  | .deleteDistribution _ _ => true
  | _ => false

/-- Token freshness discipline over a call trace: no mutating call is
issued immediately after a status poll.  A poll standing between the
acquisition of a token and the mutating call that consumes it means the
token was held across at least one polling wait interval; conversely, when
this holds, every mutating call directly follows the collaborator read
that produced its token. -/
def noMutationAfterPoll : List CFCall → Bool
  | a :: b :: t => (!(isPollCall a && isMutatingCall b)) && noMutationAfterPoll (b :: t)
  | _ => true

/-! ## Concrete environments used in counterexamples and witnesses -/

/-- A listing with two distributions, both of whose configs carry the
target origin domain for bucket `site-abc` in `us-east-1`. -/
def envFindAmbiguous : FindEnv :=
  ⟨.ok [some ["D1", "D2"]],
   fun _ => .ok (some [⟨targetOriginDomain "site-abc" "us-east-1"⟩], "E-TAG")⟩

/-- A listing with a page carrying no distribution summaries. -/
def envFindZero : FindEnv :=
  ⟨.ok [some []], fun _ => .error ()⟩

/-- A listing whose `list_distributions` pagination itself raises. -/
def envFindListErr : FindEnv :=
  ⟨.error (), fun _ => .error ()⟩

/-- An enabled distribution: the disable update returns ETag `E2`, the
first disable poll sees `InProgress`, the second sees `Deployed`, and the
distribution is reported gone at the first deletion poll. -/
def envCFFresh : CFEnv :=
  ⟨.ok (true, "E1"), .ok "E2",
   fun i => if i = 0 then .ok "InProgress" else .ok "Deployed",
   fun i => 10 * i,
   .ok (), fun _ => .error .noSuchDistribution, fun _ => 0⟩

/-- An enabled distribution whose status polls always report
`InProgress`; poll `i` observes `10 * i` elapsed seconds. -/
def envCFNeverDeployed : CFEnv :=
  ⟨.ok (true, "E1"), .ok "E2",
   fun _ => .ok "InProgress",
   fun i => 10 * i,
   .ok (), fun _ => .error .noSuchDistribution, fun _ => 0⟩

/-- An enabled distribution that reports `InProgress` at every poll made at
600 elapsed seconds or less (polls 0 through 60) and `Deployed` from poll
61 onward — that is, the status first becomes `Deployed` after the
600-second budget has already been exceeded. -/
def envCFLateDeployed : CFEnv :=
  ⟨.ok (true, "E1"), .ok "E2",
   fun i => if i ≤ 60 then .ok "InProgress" else .ok "Deployed",
   fun i => 10 * i,
   .ok (), fun _ => .error .noSuchDistribution, fun _ => 0⟩

/-- A distribution whose current live configuration is already disabled
(`Enabled == false`), with ETag `E1`; deletion succeeds at the first poll. -/
def envCFDisabled : CFEnv :=
  ⟨.ok (false, "E1"), .ok "E2",
   fun _ => .ok "Deployed",
   fun i => 10 * i,
   .ok (), fun _ => .error .noSuchDistribution, fun _ => 0⟩

/-- A sample object-version key. -/
def keyA : Key := ⟨"file", "v1"⟩

/-- An enumeration of 1500 keys in one page; every bulk delete succeeds
with no per-object errors; the first bulk delete takes 100 seconds and the
final partial one takes 400, so the run finishes at 500 elapsed seconds —
well past the 300-second budget — without the script ever observing it. -/
def envS3Overrun : S3Env :=
  ⟨.ok "Enabled", 0, [.ok ⟨List.replicate 1500 keyA, [], 0⟩],
   fun _ => .ok [], fun k => if k = 0 then 100 else 400⟩

/-- An enumeration of 1000 keys whose single in-loop bulk delete takes 400
seconds, so the in-loop budget check observes 400 elapsed seconds. -/
def envS3SlowBatch : S3Env :=
  ⟨.ok "Enabled", 0, [.ok ⟨List.replicate 1000 keyA, [], 0⟩],
   fun _ => .ok [], fun _ => 400⟩

/-- A small successful enumeration: one page with one version and one
delete marker, instantaneous calls, clean bulk deletes. -/
def envS3Small : S3Env :=
  ⟨.ok "Enabled", 0, [.ok ⟨[keyA], [⟨"file", "m1"⟩], 0⟩],
   fun _ => .ok [], fun _ => 0⟩

/-- A bucket that is absent at call time: the very first S3 call raises
`NoSuchBucket`. -/
def envS3Missing : S3Env :=
  ⟨.error .noSuchBucket, 0, [], fun _ => .ok [], fun _ => 0⟩

/-- `delete_bucket` raising `NoSuchBucket` at call time. -/
def envDelMissing : DelEnv := ⟨.error .noSuchBucket, false⟩

/-- A `delete_bucket` call that succeeds and a waiter that confirms. -/
def envDelOk : DelEnv := ⟨.ok (), true⟩

/-- An orchestrator run on bucket `site-abc` in `us-east-1` with no linked
distribution, where the operator refuses the confirmation prompt. -/
def envMainRefused : MainEnv :=
  ⟨"site-abc", some "us-east-1", "", envFindZero, some "no",
   envCFDisabled, 5, envS3Small, envDelOk⟩

/-- An orchestrator run where `list_distributions` raises and the operator
confirms. -/
def envMainListErr : MainEnv :=
  ⟨"site-abc", some "us-east-1", "", envFindListErr, some "yes",
   envCFDisabled, 5, envS3Small, envDelOk⟩

/-- An orchestrator run with no linked distribution and a confirming
operator; the bucket stages succeed. -/
def envMainNoDist : MainEnv :=
  ⟨"site-abc", some "us-east-1", "", envFindZero, some "yes",
   envCFDisabled, 5, envS3Small, envDelOk⟩

/-! ## Helper lemmas -/

theorem matchCount_cons (target : String)
    (fetch : String → Except FindErr (Option (List Origin) × String)) (d : String)
    (ids : List String) :
    matchCount target fetch (d :: ids) =
      (if fetchMatches target fetch d then 1 else 0) + matchCount target fetch ids := by
  by_cases h : fetchMatches target fetch d <;>
    simp [matchCount, List.filter_cons, h, Nat.add_comm]

theorem findLoop_none_of_two (target : String)
    (fetch : String → Except FindErr (Option (List Origin) × String)) :
    ∀ (ids : List String) (found : Option (String × String)) (count : Nat),
      count ≤ 1 → 2 ≤ count + matchCount target fetch ids →
      findLoop target fetch ids found count = none := by
  intro ids
  induction ids with
  | nil =>
    intro found count h1 h2
    simp [matchCount] at h2
    omega
  | cons d rest ih =>
    intro found count h1 h2
    rw [matchCount_cons] at h2
    cases hf : fetch d with
    | error e =>
      have hm : fetchMatches target fetch d = false := by simp [fetchMatches, hf]
      rw [hm] at h2
      simp only [Bool.false_eq_true, if_false] at h2
      simp only [findLoop, hf]
      exact ih found count h1 (by omega)
    | ok pr =>
      obtain ⟨origins?, etag⟩ := pr
      have hm : fetchMatches target fetch d = distMatches target origins? := by
        simp [fetchMatches, hf]
      rw [hm] at h2
      simp only [findLoop, hf]
      by_cases hd : distMatches target origins? = true
      · rw [if_pos hd] at h2
        rw [if_pos hd]
        by_cases hc : count = 0
        · subst hc
          rw [if_pos rfl]
          exact ih (some (d, etag)) 1 le_rfl (by omega)
        · rw [if_neg hc]
      · rw [if_neg hd] at h2
        rw [if_neg hd]
        exact ih found count h1 (by omega)

theorem disableWaitLoop_trace (env : CFEnv) (distId : String) :
    ∀ (fuel i : Nat) (c : CFCall),
      c ∈ (disableWaitLoop env distId fuel i).2 → c = CFCall.getDistribution distId := by
  intro fuel
  induction fuel with
  | zero => intro i c hc; simp [disableWaitLoop] at hc
  | succ f ih =>
    intro i c hc
    rw [disableWaitLoop] at hc
    split at hc
    · simpa using hc
    · split at hc
      · simpa using hc
      · split at hc
        · simpa using hc
        · simp only [List.mem_cons] at hc
          rcases hc with hc | hc
          · exact hc
          · exact ih (i + 1) c hc

theorem deleteWaitLoop_trace (env : CFEnv) (distId : String) :
    ∀ (fuel i : Nat) (c : CFCall),
      c ∈ (deleteWaitLoop env distId fuel i).2 → c = CFCall.getDistribution distId := by
  intro fuel
  induction fuel with
  | zero => intro i c hc; simp [deleteWaitLoop] at hc
  | succ f ih =>
    intro i c hc
    rw [deleteWaitLoop] at hc
    split at hc
    · split at hc
      · simpa using hc
      · simp only [List.mem_cons] at hc
        rcases hc with hc | hc
        · exact hc
        · exact ih (i + 1) c hc
    · split at hc
      · simpa using hc
      · simpa using hc

theorem fullChunks_of_ge (l : List Key) (h : 1000 ≤ l.length) :
    fullChunks l = l.take 1000 :: fullChunks (l.drop 1000) := by
  conv_lhs => rw [fullChunks]
  rw [if_pos h]

theorem fullChunks_of_lt (l : List Key) (h : l.length < 1000) :
    fullChunks l = [] := by
  rw [fullChunks, if_neg (by omega)]

theorem chunkRem_of_ge (l : List Key) (h : 1000 ≤ l.length) :
    chunkRem l = chunkRem (l.drop 1000) := by
  conv_lhs => rw [chunkRem]
  rw [if_pos h]

theorem chunkRem_of_lt (l : List Key) (h : l.length < 1000) :
    chunkRem l = l := by
  rw [chunkRem, if_neg (by omega)]

theorem chunkRem_length_lt_aux :
    ∀ (n : Nat) (l : List Key), l.length ≤ n → (chunkRem l).length < 1000 := by
  intro n
  induction n with
  | zero =>
    intro l h
    have : l = [] := List.eq_nil_of_length_eq_zero (Nat.le_zero.mp h)
    subst this
    rw [chunkRem_of_lt _ (by simp)]
    simp
  | succ k ih =>
    intro l h
    by_cases hge : 1000 ≤ l.length
    · rw [chunkRem_of_ge l hge]
      exact ih (l.drop 1000) (by simp only [List.length_drop]; omega)
    · rw [chunkRem_of_lt l (by omega)]
      omega

theorem chunkRem_length_lt (l : List Key) : (chunkRem l).length < 1000 :=
  chunkRem_length_lt_aux l.length l le_rfl

theorem chunk_append (m : List Key) :
    ∀ (n : Nat) (l : List Key), l.length ≤ n →
      fullChunks (l ++ m) = fullChunks l ++ fullChunks (chunkRem l ++ m) ∧
      chunkRem (l ++ m) = chunkRem (chunkRem l ++ m) := by
  intro n
  induction n with
  | zero =>
    intro l h
    have : l = [] := List.eq_nil_of_length_eq_zero (Nat.le_zero.mp h)
    subst this
    rw [fullChunks_of_lt [] (by simp), chunkRem_of_lt [] (by simp)]
    simp
  | succ k ih =>
    intro l h
    by_cases hge : 1000 ≤ l.length
    · have hlen : 1000 ≤ (l ++ m).length := by
        simp only [List.length_append]
        omega
      have htake : (l ++ m).take 1000 = l.take 1000 := by
        rw [List.take_append_eq_append_take, show 1000 - l.length = 0 by omega]
        simp
      have hdrop : (l ++ m).drop 1000 = l.drop 1000 ++ m := by
        rw [List.drop_append_eq_append_drop, show 1000 - l.length = 0 by omega]
        simp
      obtain ⟨ih1, ih2⟩ := ih (l.drop 1000) (by simp only [List.length_drop]; omega)
      constructor
      · rw [fullChunks_of_ge _ hlen, fullChunks_of_ge _ hge, chunkRem_of_ge _ hge,
            htake, hdrop, ih1]
        simp
      · rw [chunkRem_of_ge _ hlen, chunkRem_of_ge _ hge, hdrop, ih2]
    · rw [fullChunks_of_lt l (by omega), chunkRem_of_lt l (by omega)]
      simp

theorem fullChunks_flatten_aux :
    ∀ (n : Nat) (l : List Key), l.length ≤ n →
      (fullChunks l).flatten ++ chunkRem l = l := by
  intro n
  induction n with
  | zero =>
    intro l h
    have : l = [] := List.eq_nil_of_length_eq_zero (Nat.le_zero.mp h)
    subst this
    rw [fullChunks_of_lt [] (by simp), chunkRem_of_lt [] (by simp)]
    simp
  | succ k ih =>
    intro l h
    by_cases hge : 1000 ≤ l.length
    · rw [fullChunks_of_ge l hge, chunkRem_of_ge l hge]
      simp only [List.flatten_cons, List.append_assoc]
      rw [ih (l.drop 1000) (by simp only [List.length_drop]; omega)]
      exact List.take_append_drop 1000 l
    · rw [fullChunks_of_lt l (by omega), chunkRem_of_lt l (by omega)]
      simp

theorem chunks1000_flatten (l : List Key) : (chunks1000 l).flatten = l := by
  unfold chunks1000
  by_cases h : chunkRem l = []
  · rw [if_pos h]
    have := fullChunks_flatten_aux l.length l le_rfl
    rw [h] at this
    simpa using this
  · rw [if_neg h]
    have := fullChunks_flatten_aux l.length l le_rfl
    simpa using this

theorem chunks1000_len_2500 (l : List Key) (h : l.length = 2500) :
    (chunks1000 l).map List.length = [1000, 1000, 500] := by
  have h1 : 1000 ≤ l.length := by omega
  have hd1 : (l.drop 1000).length = 1500 := by simp [List.length_drop, h]
  have h2 : 1000 ≤ (l.drop 1000).length := by omega
  have hd2 : ((l.drop 1000).drop 1000).length = 500 := by
    simp only [List.length_drop]
    omega
  unfold chunks1000
  rw [fullChunks_of_ge l h1, fullChunks_of_ge _ h2,
      fullChunks_of_lt _ (by omega),
      chunkRem_of_ge l h1, chunkRem_of_ge _ h2,
      chunkRem_of_lt _ (by omega)]
  rw [if_neg (by intro hc; rw [hc] at hd2; simp at hd2)]
  simp only [List.cons_append, List.nil_append, List.map_cons, List.map_nil,
             List.length_take]
  rw [hd2]
  congr 1
  · omega
  · congr 1
    omega

theorem drain_of_lt (env : S3Env) (fuel : Nat) (s : EmptyState)
    (h : s.pending.length < 1000) : drain env fuel s = .ok s := by
  cases fuel with
  | zero => rfl
  | succ f =>
    rw [drain]
    rw [if_neg (by omega)]

theorem drain_spec (env : S3Env) (h1 : ∀ k, env.batchResp k = Except.ok [])
    (h2 : ∀ k, env.batchDur k = 0) :
    ∀ (fuel : Nat) (p : List Key) (b : Nat) (bs : List (List Key)),
      p.length ≤ fuel →
      drain env fuel ⟨p, 0, b, bs⟩ =
        .ok ⟨chunkRem p, 0, b + (fullChunks p).length, bs ++ fullChunks p⟩ := by
  intro fuel
  induction fuel with
  | zero =>
    intro p b bs hl
    have hp : p = [] := List.eq_nil_of_length_eq_zero (Nat.le_zero.mp hl)
    subst hp
    rw [chunkRem_of_lt [] (by simp), fullChunks_of_lt [] (by simp)]
    simp [drain]
  | succ f ih =>
    intro p b bs hl
    by_cases hge : 1000 ≤ p.length
    · rw [drain]
      simp only [if_pos hge, h1 b, h2 b, Nat.add_zero]
      rw [if_neg (by simp)]
      rw [if_neg (by simp [S3_DELETE_TIMEOUT_SECONDS])]
      rw [ih (p.drop 1000) (b + 1) (bs ++ [p.take 1000])
            (by simp only [List.length_drop]; omega)]
      rw [fullChunks_of_ge p hge, chunkRem_of_ge p hge]
      have hn : b + 1 + (fullChunks (p.drop 1000)).length =
          b + (p.take 1000 :: fullChunks (p.drop 1000)).length := by
        simp only [List.length_cons]
        omega
      have hb2 : bs ++ [p.take 1000] ++ fullChunks (p.drop 1000) =
          bs ++ p.take 1000 :: fullChunks (p.drop 1000) := by
        simp
      rw [hn, hb2]
    · rw [drain_of_lt env _ _ (by simpa using Nat.lt_of_not_le hge)]
      rw [chunkRem_of_lt p (by omega), fullChunks_of_lt p (by omega)]
      simp

theorem pagesLoop_spec (env : S3Env) (h1 : ∀ k, env.batchResp k = Except.ok [])
    (h2 : ∀ k, env.batchDur k = 0) :
    ∀ (ps : List (Except S3Err S3Page)) (p : List Key) (b : Nat) (bs : List (List Key)),
      (∀ q ∈ ps, ∃ pg, q = Except.ok pg ∧ pg.dur = 0) → p.length < 1000 →
      pagesLoop env ps ⟨p, 0, b, bs⟩ =
        .ok ⟨chunkRem (p ++ (ps.map pageKeys).flatten), 0,
             b + (fullChunks (p ++ (ps.map pageKeys).flatten)).length,
             bs ++ fullChunks (p ++ (ps.map pageKeys).flatten)⟩ := by
  intro ps
  induction ps with
  | nil =>
    intro p b bs hq hlt
    simp only [pagesLoop, List.map_nil, List.flatten_nil, List.append_nil]
    rw [chunkRem_of_lt p hlt, fullChunks_of_lt p hlt]
    simp
  | cons q rest ih =>
    intro p b bs hq hlt
    obtain ⟨pg, hpg, hdur⟩ := hq q (List.mem_cons_self q rest)
    subst hpg
    simp only [pagesLoop, hdur, Nat.add_zero]
    have hdr : drainAll env ⟨p ++ (pg.versions ++ pg.markers), 0, b, bs⟩ =
        .ok ⟨chunkRem (p ++ (pg.versions ++ pg.markers)), 0,
             b + (fullChunks (p ++ (pg.versions ++ pg.markers))).length,
             bs ++ fullChunks (p ++ (pg.versions ++ pg.markers))⟩ := by
      unfold drainAll
      exact drain_spec env h1 h2 _ _ _ _ le_rfl
    simp only [hdr]
    rw [ih (chunkRem (p ++ (pg.versions ++ pg.markers)))
          (b + (fullChunks (p ++ (pg.versions ++ pg.markers))).length)
          (bs ++ fullChunks (p ++ (pg.versions ++ pg.markers)))
          (fun q hqm => hq q (List.mem_cons_of_mem _ hqm))
          (chunkRem_length_lt _)]
    obtain ⟨hA, hB⟩ := chunk_append ((rest.map pageKeys).flatten)
      (p ++ (pg.versions ++ pg.markers)).length (p ++ (pg.versions ++ pg.markers)) le_rfl
    have hkeys : p ++ (List.map pageKeys (Except.ok pg :: rest)).flatten =
        (p ++ (pg.versions ++ pg.markers)) ++ (rest.map pageKeys).flatten := by
      simp [pageKeys, List.append_assoc]
    rw [hkeys, hA, hB]
    have hn : b + (fullChunks (p ++ (pg.versions ++ pg.markers))).length +
        (fullChunks (chunkRem (p ++ (pg.versions ++ pg.markers)) ++
          (rest.map pageKeys).flatten)).length =
        b + (fullChunks (p ++ (pg.versions ++ pg.markers)) ++
          fullChunks (chunkRem (p ++ (pg.versions ++ pg.markers)) ++
            (rest.map pageKeys).flatten)).length := by
      simp only [List.length_append]
      omega
    have hb2 : bs ++ fullChunks (p ++ (pg.versions ++ pg.markers)) ++
        fullChunks (chunkRem (p ++ (pg.versions ++ pg.markers)) ++
          (rest.map pageKeys).flatten) =
        bs ++ (fullChunks (p ++ (pg.versions ++ pg.markers)) ++
          fullChunks (chunkRem (p ++ (pg.versions ++ pg.markers)) ++
            (rest.map pageKeys).flatten)) := by
      simp [List.append_assoc]
    rw [hn, hb2]

theorem empty_s3_bucket_spec (env : S3Env) (hv : ∃ v, env.versioningResp = Except.ok v)
    (hp : ∀ q ∈ env.pages, ∃ pg, q = Except.ok pg ∧ pg.dur = 0)
    (hpre : env.preDur = 0)
    (h1 : ∀ k, env.batchResp k = Except.ok [])
    (h2 : ∀ k, env.batchDur k = 0) :
    empty_s3_bucket env = (true, chunks1000 (allKeys env), 0) := by
  obtain ⟨v, hv⟩ := hv
  unfold empty_s3_bucket
  rw [hv, hpre]
  rw [pagesLoop_spec env h1 h2 env.pages [] 0 [] hp (by simp)]
  simp only [List.nil_append]
  have hfold : (List.map pageKeys env.pages).flatten = allKeys env := rfl
  rw [hfold]
  by_cases hrem : chunkRem (allKeys env) = []
  · rw [if_neg (by simp [hrem])]
    unfold chunks1000
    rw [if_pos hrem]
    simp
  · rw [if_pos hrem]
    simp only [h1, h2, Nat.add_zero]
    rw [if_neg (by simp)]
    unfold chunks1000
    rw [if_neg hrem]

theorem drainAll_of_lt (env : S3Env) (s : EmptyState) (h : s.pending.length < 1000) :
    drainAll env s = .ok s := by
  unfold drainAll
  exact drain_of_lt env _ s h

theorem pagesLoop_timeout (env : S3Env) (hr : env.batchResp 0 = Except.ok [])
    (hd : S3_DELETE_TIMEOUT_SECONDS < env.batchDur 0) :
    ∀ (ps : List (Except S3Err S3Page)) (p : List Key),
      (∀ q ∈ ps, ∃ pg, q = Except.ok pg ∧ pg.dur = 0) →
      p.length < 1000 → 1000 ≤ (p ++ (ps.map pageKeys).flatten).length →
      pagesLoop env ps ⟨p, 0, 0, []⟩ =
        .error (false, [(p ++ (ps.map pageKeys).flatten).take 1000], env.batchDur 0) := by
  intro ps
  induction ps with
  | nil =>
    intro p hq hlt hge
    simp only [List.map_nil, List.flatten_nil, List.append_nil] at hge
    omega
  | cons q rest ih =>
    intro p hq hlt hge
    obtain ⟨pg, hpg, hdur⟩ := hq q (List.mem_cons_self q rest)
    subst hpg
    have hkeys : p ++ (List.map pageKeys (Except.ok pg :: rest)).flatten =
        (p ++ (pg.versions ++ pg.markers)) ++ (rest.map pageKeys).flatten := by
      simp [pageKeys, List.append_assoc]
    simp only [pagesLoop, hdur, Nat.add_zero]
    by_cases hge1 : 1000 ≤ (p ++ (pg.versions ++ pg.markers)).length
    · have hdr : drainAll env ⟨p ++ (pg.versions ++ pg.markers), 0, 0, []⟩ =
          .error (false, [(p ++ (pg.versions ++ pg.markers)).take 1000], env.batchDur 0) := by
        simp only [drainAll]
        rcases hL : (p ++ (pg.versions ++ pg.markers)).length with _ | n
        · omega
        · simp only [drain, hr]
          rw [if_pos hge1]
          rw [if_neg (by simp)]
          simp only [Nat.zero_add]
          rw [if_pos hd]
          simp
      simp only [hdr]
      have htk : (p ++ (pg.versions ++ pg.markers)).take 1000 =
          (p ++ (List.map pageKeys (Except.ok pg :: rest)).flatten).take 1000 := by
        rw [hkeys]
        conv_rhs => rw [List.take_append_eq_append_take]
        rw [show 1000 - (p ++ (pg.versions ++ pg.markers)).length = 0 by omega]
        simp
      rw [htk]
    · have hdr := drainAll_of_lt env ⟨p ++ (pg.versions ++ pg.markers), 0, 0, []⟩
        (by simpa using Nat.lt_of_not_le hge1)
      simp only [hdr]
      rw [hkeys]
      exact ih (p ++ (pg.versions ++ pg.markers))
        (fun q' hq' => hq q' (List.mem_cons_of_mem _ hq'))
        (by simpa using Nat.lt_of_not_le hge1)
        (by rw [hkeys] at hge; exact hge)

theorem deletePhase_trace (env : CFEnv) (distId etag : String) (fuel : Nat) :
    ∃ rest, (deletePhase env distId etag fuel).2 =
        CFCall.deleteDistribution distId etag :: rest ∧
      ∀ c ∈ rest, c = CFCall.getDistribution distId := by
  unfold deletePhase
  cases hd : env.deleteResp with
  | error e => exact ⟨[], rfl, by simp⟩
  | ok u =>
    exact ⟨(deleteWaitLoop env distId fuel 0).2, rfl,
           fun c hc => deleteWaitLoop_trace env distId fuel 0 c hc⟩

/-! ## Claim C1 -/

/-- C1: in every terminating orchestrator run, a bucket-deletion stage
appears in the trace only if the emptying stage returned success in that
run and the CDN stage either returned success or no distribution was
identified by the search.  The well-formedness hypothesis `hwf` records
that the collaborator returns non-empty distribution ids and ETags (the
script tests them for truthiness). -/
theorem delete_bucket_only_after_empty_and_cdn (env : MainEnv) (code : Nat)
    (tr : List StageCall) (b : Bool)
    (hwf : ∀ p, mainFind env = some p → p.1 ≠ "" ∧ p.2 ≠ "")
    (hrun : main env = some (code, tr))
    (hdel : StageCall.deleteStage b ∈ tr) :
    (empty_s3_bucket env.s3Env).1 = true ∧
    (mainFind env = none ∨ (mainCF env).1 = some true) := by
  unfold main at hrun
  by_cases hb : resolvedBucket env = ""
  · rw [if_pos hb] at hrun
    obtain ⟨h1, h2⟩ := Prod.mk.inj (Option.some.inj hrun)
    subst h2
    exact absurd hdel (List.not_mem_nil _)
  · rw [if_neg hb] at hrun
    by_cases hr : resolvedRegion env = ""
    · rw [if_pos hr] at hrun
      obtain ⟨h1, h2⟩ := Prod.mk.inj (Option.some.inj hrun)
      subst h2
      exact absurd hdel (List.not_mem_nil _)
    · rw [if_neg hr] at hrun
      by_cases hc : confirm_deletion (resolvedBucket env)
          ((mainFind env).map Prod.fst) env.confirmInput = true
      · rw [if_pos hc] at hrun
        cases hf : mainFind env with
        | none =>
          simp only [hf, Option.some.injEq] at hrun
          by_cases he : (empty_s3_bucket env.s3Env).1 = true
          · exact ⟨he, Or.inl rfl⟩
          · exfalso
            unfold bucketPhase at hrun
            rw [if_neg he] at hrun
            obtain ⟨h1, h2⟩ := Prod.mk.inj hrun
            rw [← h2] at hdel
            simp at hdel
        | some p =>
          obtain ⟨distId, distEtag⟩ := p
          simp only [hf] at hrun
          obtain ⟨hne1, hne2⟩ := hwf (distId, distEtag) hf
          rw [if_neg (fun hor => hor.elim hne1 hne2)] at hrun
          cases hcf : (delete_cloudfront_distribution distId distEtag env.cfEnv env.cfFuel).1 with
          | none =>
            simp [hcf] at hrun
          | some bb =>
            cases bb with
            | false =>
              rw [hcf] at hrun
              obtain ⟨h1, h2⟩ := Prod.mk.inj (Option.some.inj hrun)
              rw [← h2] at hdel
              simp at hdel
            | true =>
              rw [hcf] at hrun
              have hbp : bucketPhase env [StageCall.cfStage true] = (code, tr) :=
                Option.some.inj hrun
              by_cases he : (empty_s3_bucket env.s3Env).1 = true
              · refine ⟨he, Or.inr ?_⟩
                simp only [mainCF, hf]
                exact hcf
              · exfalso
                unfold bucketPhase at hbp
                rw [if_neg he] at hbp
                obtain ⟨h1, h2⟩ := Prod.mk.inj hbp
                rw [← h2] at hdel
                simp at hdel
      · rw [if_neg hc] at hrun
        obtain ⟨h1, h2⟩ := Prod.mk.inj (Option.some.inj hrun)
        subst h2
        exact absurd hdel (List.not_mem_nil _)

/-- C1 witness: the theorem applied to the run with no linked
distribution, where the bucket stages succeed. -/
theorem delete_bucket_only_after_empty_and_cdn_witness :
    (empty_s3_bucket envMainNoDist.s3Env).1 = true ∧
    (mainFind envMainNoDist = none ∨ (mainCF envMainNoDist).1 = some true) := by
  have he : (empty_s3_bucket envMainNoDist.s3Env).1 = true := by
    have h := empty_s3_bucket_spec envS3Small ⟨"Enabled", rfl⟩
      (by
        intro q hq
        simp only [envS3Small, List.mem_singleton] at hq
        exact ⟨_, hq, rfl⟩)
      rfl (fun k => rfl) (fun k => rfl)
    rw [show envMainNoDist.s3Env = envS3Small from rfl, h]
  apply delete_bucket_only_after_empty_and_cdn envMainNoDist
    (bucketPhase envMainNoDist []).1 (bucketPhase envMainNoDist []).2 true
  · intro p hp
    rw [show mainFind envMainNoDist = none from rfl] at hp
    exact Option.noConfusion hp
  · unfold main
    rw [if_neg (by decide), if_neg (by decide), if_pos (by decide)]
    rfl
  · show StageCall.deleteStage true ∈ (bucketPhase envMainNoDist []).2
    unfold bucketPhase
    rw [if_pos he]
    rw [show delete_s3_bucket envMainNoDist.delEnv = true from rfl]
    simp

/-! ## Claim C2 -/

/-- C2 counterexample.  With two distributions matching the target origin
domain, `find_cloudfront_for_s3_bucket` returns `None` — exactly the same
value as for the zero-match listing, so the claimed `Ambiguous` result,
distinct from the zero-match `None` outcome, does not exist in the code:
the search result type is an optional pair and ambiguity is reported only
in a log message. -/
theorem find_ambiguous_counterexample :
    find_cloudfront_for_s3_bucket "site-abc" "us-east-1" envFindAmbiguous = none ∧
    find_cloudfront_for_s3_bucket "site-abc" "us-east-1" envFindZero = none ∧
    find_cloudfront_for_s3_bucket "site-abc" "us-east-1" envFindAmbiguous =
      find_cloudfront_for_s3_bucket "site-abc" "us-east-1" envFindZero :=
  ⟨rfl, rfl, rfl⟩

/-- C2 amended: for every listing containing two or more distributions
whose origin domain equals the target origin domain, the search aborts on
the second match and returns `None`, selecting neither candidate; the
ambiguous outcome is indistinguishable in the returned value from the
zero-match `None` outcome. -/
theorem find_two_matches_returns_none (b r : String) (env : FindEnv)
    (pages : List (Option (List String)))
    (hl : env.listing = .ok pages)
    (h2 : 2 ≤ matchCount (targetOriginDomain b r) env.fetchConfig (pageIds pages)) :
    find_cloudfront_for_s3_bucket b r env = none := by
  unfold find_cloudfront_for_s3_bucket
  rw [hl]
  exact findLoop_none_of_two _ _ _ none 0 (by omega) (by simpa using h2)

/-- C2 witness: the amended theorem applied to the concrete two-match
listing. -/
theorem find_two_matches_returns_none_witness :
    find_cloudfront_for_s3_bucket "site-abc" "us-east-1" envFindAmbiguous = none :=
  find_two_matches_returns_none "site-abc" "us-east-1" envFindAmbiguous
    [some ["D1", "D2"]] rfl (by decide)

/-! ## Claim C3 -/

/-- C3 counterexample.  In a run that takes the disable path (enabled
distribution, update returns ETag `E2`, two status polls with a wait
between them, then delete), the `delete_distribution` call is issued
directly after a status poll — its token `E2` was captured from the update
response before the polling wait period and is not re-read after it — so
the trace violates the token-freshness discipline the claim asserts. -/
theorem stale_token_counterexample :
    noMutationAfterPoll (delete_cloudfront_distribution "D" "E0" envCFFresh 5).2 = false ∧
    CFCall.deleteDistribution "D" "E2" ∈
      (delete_cloudfront_distribution "D" "E0" envCFFresh 5).2 ∧
    envCFFresh.updateResp = Except.ok "E2" :=
  ⟨by decide, by decide, rfl⟩

/-- C3 amended: every mutating call's token does originate from a
collaborator read of the current run — never the stale token passed in by
the caller — but it is not re-read immediately before each mutating call:
the disable update uses the ETag of the config fetch made just before it,
while the delete uses either that config-fetch ETag (already-disabled
path, no wait in between) or the ETag of the update response, which is
held across the disable polling wait rather than refreshed after it. -/
theorem mutating_tokens_from_this_run (env : CFEnv) (distId etag : String) (fuel : Nat) :
    (∀ e', CFCall.updateDistribution distId e' ∈
        (delete_cloudfront_distribution distId etag env fuel).2 →
      env.configResp = Except.ok (true, e')) ∧
    (∀ e', CFCall.deleteDistribution distId e' ∈
        (delete_cloudfront_distribution distId etag env fuel).2 →
      env.configResp = Except.ok (false, e') ∨ env.updateResp = Except.ok e') := by
  cases hcfg : env.configResp with
  | error e =>
    have ht : (delete_cloudfront_distribution distId etag env fuel).2 =
        [CFCall.getDistributionConfig distId] := by
      unfold delete_cloudfront_distribution
      rw [hcfg]
    constructor <;> (intro e' hmem; rw [ht] at hmem; simp at hmem)
  | ok pr =>
    obtain ⟨en, c⟩ := pr
    cases en with
    | false =>
      obtain ⟨rest, hrest, hall⟩ := deletePhase_trace env distId c fuel
      have ht : (delete_cloudfront_distribution distId etag env fuel).2 =
          CFCall.getDistributionConfig distId :: (deletePhase env distId c fuel).2 := by
        unfold delete_cloudfront_distribution
        rw [hcfg]
        rfl
      rw [hrest] at ht
      constructor <;> intro e' hmem <;> rw [ht] at hmem <;>
        simp only [List.mem_cons] at hmem
      · rcases hmem with h | h | h
        · exact CFCall.noConfusion h
        · exact CFCall.noConfusion h
        · exact CFCall.noConfusion (hall _ h)
      · rcases hmem with h | h | h
        · exact CFCall.noConfusion h
        · obtain ⟨h1, h2⟩ := CFCall.deleteDistribution.inj h
          subst h2
          exact Or.inl rfl
        · exact CFCall.noConfusion (hall _ h)
    | true =>
      cases hupd : env.updateResp with
      | error e =>
        have ht : (delete_cloudfront_distribution distId etag env fuel).2 =
            [CFCall.getDistributionConfig distId, CFCall.updateDistribution distId c] := by
          unfold delete_cloudfront_distribution
          rw [hcfg]
          simp only [if_true]
          rw [hupd]
        constructor <;> intro e' hmem <;> rw [ht] at hmem <;>
          simp only [List.mem_cons] at hmem
        · rcases hmem with h | h | h
          · exact CFCall.noConfusion h
          · obtain ⟨h1, h2⟩ := CFCall.updateDistribution.inj h
            subst h2
            rfl
          · exact absurd h (List.not_mem_nil _)
        · rcases hmem with h | h | h
          · exact CFCall.noConfusion h
          · exact CFCall.noConfusion h
          · exact absurd h (List.not_mem_nil _)
      | ok newEtag =>
        rcases hlp : disableWaitLoop env distId fuel 0 with ⟨ob, tr⟩
        have htr : ∀ x ∈ tr, x = CFCall.getDistribution distId := by
          intro x hx
          exact disableWaitLoop_trace env distId fuel 0 x (by rw [hlp]; exact hx)
        cases ob with
        | none =>
          have ht : (delete_cloudfront_distribution distId etag env fuel).2 =
              CFCall.getDistributionConfig distId ::
                CFCall.updateDistribution distId c :: tr := by
            unfold delete_cloudfront_distribution
            rw [hcfg]
            simp only [if_true]
            rw [hupd, hlp]
          constructor <;> intro e' hmem <;> rw [ht] at hmem <;>
            simp only [List.mem_cons] at hmem
          · rcases hmem with h | h | h
            · exact CFCall.noConfusion h
            · obtain ⟨h1, h2⟩ := CFCall.updateDistribution.inj h
              subst h2
              rfl
            · exact CFCall.noConfusion (htr _ h)
          · rcases hmem with h | h | h
            · exact CFCall.noConfusion h
            · exact CFCall.noConfusion h
            · exact CFCall.noConfusion (htr _ h)
        | some b =>
          cases b with
          | false =>
            have ht : (delete_cloudfront_distribution distId etag env fuel).2 =
                CFCall.getDistributionConfig distId ::
                  CFCall.updateDistribution distId c :: tr := by
              unfold delete_cloudfront_distribution
              rw [hcfg]
              simp only [if_true]
              rw [hupd, hlp]
            constructor <;> intro e' hmem <;> rw [ht] at hmem <;>
              simp only [List.mem_cons] at hmem
            · rcases hmem with h | h | h
              · exact CFCall.noConfusion h
              · obtain ⟨h1, h2⟩ := CFCall.updateDistribution.inj h
                subst h2
                rfl
              · exact CFCall.noConfusion (htr _ h)
            · rcases hmem with h | h | h
              · exact CFCall.noConfusion h
              · exact CFCall.noConfusion h
              · exact CFCall.noConfusion (htr _ h)
          | true =>
            obtain ⟨rest, hrest, hall⟩ := deletePhase_trace env distId newEtag fuel
            have ht : (delete_cloudfront_distribution distId etag env fuel).2 =
                CFCall.getDistributionConfig distId ::
                  CFCall.updateDistribution distId c ::
                    (tr ++ (deletePhase env distId newEtag fuel).2) := by
              unfold delete_cloudfront_distribution
              rw [hcfg]
              simp only [if_true]
              rw [hupd, hlp]
            rw [hrest] at ht
            constructor <;> intro e' hmem <;> rw [ht] at hmem <;>
              simp only [List.mem_cons, List.mem_append] at hmem
            · rcases hmem with h | h | h | h | h
              · exact CFCall.noConfusion h
              · obtain ⟨h1, h2⟩ := CFCall.updateDistribution.inj h
                subst h2
                rfl
              · exact CFCall.noConfusion (htr _ h)
              · exact CFCall.noConfusion h
              · exact CFCall.noConfusion (hall _ h)
            · rcases hmem with h | h | h | h | h
              · exact CFCall.noConfusion h
              · exact CFCall.noConfusion h
              · exact CFCall.noConfusion (htr _ h)
              · obtain ⟨h1, h2⟩ := CFCall.deleteDistribution.inj h
                subst h2
                exact Or.inr rfl
              · exact CFCall.noConfusion (hall _ h)

/-- C3 witness: in the concrete disable-path run, the update call used the
config-fetch ETag `E1` and the delete call used the update-response ETag
`E2`. -/
theorem mutating_tokens_from_this_run_witness :
    envCFFresh.configResp = Except.ok (true, "E1") ∧
    (envCFFresh.configResp = Except.ok (false, "E2") ∨
      envCFFresh.updateResp = Except.ok "E2") :=
  ⟨(mutating_tokens_from_this_run envCFFresh "D" "E0" 5).1 "E1" (by decide),
   (mutating_tokens_from_this_run envCFFresh "D" "E0" 5).2 "E2" (by decide)⟩

/-! ## Claim C4 -/

theorem disableWaitLoop_never_deployed (env : CFEnv) (distId : String)
    (hnd : ∀ i s, env.disablePoll i = Except.ok s → s ≠ "Deployed")
    (hel : ∀ i, 10 * i ≤ env.disableElapsed i) :
    ∀ fuel i, 61 - i < fuel → i ≤ 61 →
      (disableWaitLoop env distId fuel i).1 = some false := by
  intro fuel
  induction fuel with
  | zero => intro i h1 h2; omega
  | succ f ih =>
    intro i h1 h2
    rw [disableWaitLoop]
    cases hp : env.disablePoll i with
    | error e => simp [hp]
    | ok status =>
      have hs : ¬ ((status == "Deployed") = true) := by
        simpa using hnd i status hp
      simp only [hp]
      rw [if_neg hs]
      by_cases ht : CLOUDFRONT_TIMEOUT_SECONDS < env.disableElapsed i
      · rw [if_pos ht]
      · rw [if_neg ht]
        have hi : i ≤ 60 := by
          have h10 := hel i
          unfold CLOUDFRONT_TIMEOUT_SECONDS at ht
          omega
        exact ih (i + 1) (by omega) (by omega)

/-- C4 counterexample.  The loop checks the status before the clock, so a
poll that first observes `Deployed` after the 600-second budget has been
exceeded still succeeds and the delete is issued: in `envCFLateDeployed`,
every poll made at 600 elapsed seconds or less (polls 0..60) reports
`InProgress`, the status becomes `Deployed` only at poll 61 (610 elapsed
seconds), and yet the run returns success and issues
`delete_distribution` — the machine neither returns Failed on this
timeout nor withholds the delete. -/
theorem disable_timeout_grace_poll_counterexample :
    ((List.range 61).all (fun i =>
        decide (envCFLateDeployed.disableElapsed i ≤ 600) &&
        (match envCFLateDeployed.disablePoll i with
         | .ok s => s == "InProgress"
         | .error _ => false))) = true ∧
    (delete_cloudfront_distribution "D" "E0" envCFLateDeployed 63).1 = some true ∧
    CFCall.deleteDistribution "D" "E2" ∈
      (delete_cloudfront_distribution "D" "E0" envCFLateDeployed 63).2 := by
  refine ⟨by decide, by decide, by decide⟩

/-- C4 amended: if every status poll of the disable wait — including any
poll made after the budget is already exceeded — observes a status other
than `Deployed`, then the state machine returns Failed and no
`delete_distribution` call is ever issued in that run; a poll observing
`Deployed` is honoured even when it arrives after the 600-second budget. -/
theorem disable_timeout_no_delete (env : CFEnv) (distId etag c u : String) (fuel : Nat)
    (hcfg : env.configResp = Except.ok (true, c)) (hupd : env.updateResp = Except.ok u)
    (hnd : ∀ i s, env.disablePoll i = Except.ok s → s ≠ "Deployed")
    (hel : ∀ i, 10 * i ≤ env.disableElapsed i)
    (hfuel : 61 < fuel) :
    (delete_cloudfront_distribution distId etag env fuel).1 = some false ∧
    ∀ d e', CFCall.deleteDistribution d e' ∉
      (delete_cloudfront_distribution distId etag env fuel).2 := by
  have hloop1 : (disableWaitLoop env distId fuel 0).1 = some false :=
    disableWaitLoop_never_deployed env distId hnd hel fuel 0 (by omega) (by omega)
  rcases hlp : disableWaitLoop env distId fuel 0 with ⟨ob, tr⟩
  rw [hlp] at hloop1
  simp only at hloop1
  subst hloop1
  have ht : delete_cloudfront_distribution distId etag env fuel =
      (some false, CFCall.getDistributionConfig distId ::
        CFCall.updateDistribution distId c :: tr) := by
    unfold delete_cloudfront_distribution
    rw [hcfg]
    simp only [if_true]
    rw [hupd, hlp]
  rw [ht]
  refine ⟨rfl, ?_⟩
  intro d e'
  simp only [List.mem_cons]
  rintro (h | h | h)
  · exact CFCall.noConfusion h
  · exact CFCall.noConfusion h
  · exact CFCall.noConfusion (disableWaitLoop_trace env distId fuel 0 _ (by rw [hlp]; exact h))

/-- C4 witness: the amended theorem applied to the distribution whose
polls never report `Deployed`. -/
theorem disable_timeout_no_delete_witness :
    (delete_cloudfront_distribution "D" "E0" envCFNeverDeployed 62).1 = some false ∧
    CFCall.deleteDistribution "D" "E2" ∉
      (delete_cloudfront_distribution "D" "E0" envCFNeverDeployed 62).2 := by
  have h := disable_timeout_no_delete envCFNeverDeployed "D" "E0" "E1" "E2" 62 rfl rfl
    (fun i s hp => by
      simp only [envCFNeverDeployed] at hp
      obtain rfl := (Except.ok.inj hp).symm
      decide)
    (fun i => Nat.le_refl _) (by omega)
  exact ⟨h.1, h.2 "D" "E2"⟩

/-! ## Claim C5 -/

/-- C5: under clean bulk-delete responses and within the time budget, the
emptier's bulk-delete trace is exactly the greedy 1000-batching of the
enumerated keys in discovery order — whenever the accumulation reaches
1000 keys a batch of exactly 1000 is sliced off and deleted, and after
pagination the non-empty remainder is deleted as a final batch; in
particular an enumeration of exactly 2500 keys yields exactly 3 batches of
sizes 1000, 1000, 500 whose concatenation is the full enumeration. -/
theorem emptier_batches (env : S3Env)
    (hv : ∃ v, env.versioningResp = Except.ok v)
    (hp : ∀ q ∈ env.pages, ∃ pg, q = Except.ok pg ∧ pg.dur = 0)
    (hpre : env.preDur = 0)
    (h1 : ∀ k, env.batchResp k = Except.ok [])
    (h2 : ∀ k, env.batchDur k = 0) :
    (empty_s3_bucket env).1 = true ∧
    (empty_s3_bucket env).2.1 = chunks1000 (allKeys env) ∧
    ((allKeys env).length = 2500 →
      ((empty_s3_bucket env).2.1).map List.length = [1000, 1000, 500] ∧
      ((empty_s3_bucket env).2.1).flatten = allKeys env) := by
  have hs := empty_s3_bucket_spec env hv hp hpre h1 h2
  rw [hs]
  exact ⟨rfl, rfl, fun h25 => ⟨chunks1000_len_2500 _ h25, chunks1000_flatten _⟩⟩

/-- C5 witness: the theorem applied to the concrete two-key enumeration. -/
theorem emptier_batches_witness :
    (empty_s3_bucket envS3Small).1 = true ∧
    (empty_s3_bucket envS3Small).2.1 = chunks1000 (allKeys envS3Small) := by
  have h := emptier_batches envS3Small ⟨"Enabled", rfl⟩
    (by
      intro q hq
      simp only [envS3Small, List.mem_singleton] at hq
      exact ⟨_, hq, rfl⟩)
    rfl (fun k => rfl) (fun k => rfl)
  exact ⟨h.1, h.2.1⟩

/-! ## Claim C6 -/

set_option maxRecDepth 40000 in
/-- C6 counterexample.  A run that spends 500 wall-clock seconds — far
past the 300-second budget — and still returns success: 1500 keys, the
in-loop batch takes 100 seconds (the only budget check, which passes at
100), and the final partial batch takes 400 more seconds with no check
after it.  Exceeding the budget at some point of the run therefore does
not imply failure. -/
theorem emptier_overrun_counterexample :
    (empty_s3_bucket envS3Overrun).1 = true ∧
    S3_DELETE_TIMEOUT_SECONDS < (empty_s3_bucket envS3Overrun).2.2 ∧
    (empty_s3_bucket envS3Overrun).2.2 = 500 := by
  refine ⟨by decide, by decide, by decide⟩

/-- C6 amended: the 300-second budget is checked only immediately after
each full in-loop batch of 1000; when such a check observes elapsed time
over the budget the operation returns Failed even though that batch was
deleted successfully, but time spent during enumeration or during the
final partial batch is never checked, so a run can exceed the budget and
still succeed.  Concretely: with clean delete responses, instantaneous
enumeration, at least 1000 keys, and a first bulk delete longer than 300
seconds, the emptier fails right after that first batch. -/
theorem emptier_timeout_after_full_batch (env : S3Env)
    (hv : ∃ v, env.versioningResp = Except.ok v)
    (hp : ∀ q ∈ env.pages, ∃ pg, q = Except.ok pg ∧ pg.dur = 0)
    (hpre : env.preDur = 0)
    (hr : ∀ k, env.batchResp k = Except.ok [])
    (hk : 1000 ≤ (allKeys env).length)
    (hd : 300 < env.batchDur 0) :
    empty_s3_bucket env = (false, [(allKeys env).take 1000], env.batchDur 0) := by
  obtain ⟨v, hv⟩ := hv
  unfold empty_s3_bucket
  rw [hv, hpre]
  rw [pagesLoop_timeout env (hr 0)
        (by simpa [S3_DELETE_TIMEOUT_SECONDS] using hd) env.pages [] hp (by simp)
        (by simpa [allKeys] using hk)]
  have hfold : (List.map pageKeys env.pages).flatten = allKeys env := rfl
  simp only [List.nil_append, hfold]

set_option maxRecDepth 40000 in
/-- C6 witness: the amended theorem applied to the 1000-key enumeration
whose single in-loop bulk delete takes 400 seconds. -/
theorem emptier_timeout_after_full_batch_witness :
    empty_s3_bucket envS3SlowBatch =
      (false, [(allKeys envS3SlowBatch).take 1000], envS3SlowBatch.batchDur 0) := by
  apply emptier_timeout_after_full_batch envS3SlowBatch ⟨"Enabled", rfl⟩
    (by
      intro q hq
      simp only [envS3SlowBatch, List.mem_singleton] at hq
      exact ⟨_, hq, rfl⟩)
    rfl (fun k => rfl)
    (by decide)
    (by decide)

/-! ## Claim C7 -/

/-- C7 counterexample.  The gate accepts the input `YES`, which is not
exactly the affirmative token `yes`: the operator's line is stripped and
lowercased before comparison, so the gate does not return true only on the
exact token. -/
theorem confirm_gate_exact_token_counterexample :
    confirm_deletion "site-abc" none (some "YES") = true ∧ ("YES" : String) ≠ "yes" :=
  ⟨rfl, by decide⟩

/-- C7 amended: the gate returns true exactly when a line was read and its
stripped, lowercased form equals `yes`; any other input, and a closed input
stream, refuse; and a refusal makes the run terminate as a cancellation
with exit code 0 with no deletion stage ever invoked. -/
theorem confirm_gate_normalized (bn : String) (did : Option String) (inp : Option String)
    (env : MainEnv) :
    (confirm_deletion bn did inp = true ↔ ∃ s, inp = some s ∧ pyLower (pyStrip s) = "yes") ∧
    (confirm_deletion (resolvedBucket env) ((mainFind env).map Prod.fst) env.confirmInput = false →
      resolvedBucket env ≠ "" → resolvedRegion env ≠ "" →
      main env = some (0, [])) := by
  constructor
  · cases inp with
    | none => simp [confirm_deletion]
    | some s => simp [confirm_deletion]
  · intro hc hb hr
    unfold main
    rw [if_neg hb, if_neg hr, if_neg (by simp [hc])]

/-- C7 witness: a refused run on a non-empty bucket name and resolved
region exits 0 with an empty stage trace. -/
theorem confirm_gate_normalized_witness : main envMainRefused = some (0, []) :=
  (confirm_gate_normalized "x" none none envMainRefused).2 (by decide) (by decide) (by decide)

/-! ## Claim C8 -/

/-- C8: when the current live configuration reports `Enabled == false`, the
state machine issues no disable-update call and proceeds directly from the
config fetch to the delete call, using the ETag of that very config fetch
as the token. -/
theorem already_disabled_skips_update (env : CFEnv) (distId etag e1 : String) (fuel : Nat)
    (h : env.configResp = .ok (false, e1)) :
    (delete_cloudfront_distribution distId etag env fuel).2.take 2 =
      [CFCall.getDistributionConfig distId, CFCall.deleteDistribution distId e1] ∧
    ∀ e', CFCall.updateDistribution distId e' ∉
      (delete_cloudfront_distribution distId etag env fuel).2 := by
  obtain ⟨rest, hrest, hall⟩ := deletePhase_trace env distId e1 fuel
  have hrun : (delete_cloudfront_distribution distId etag env fuel).2 =
      CFCall.getDistributionConfig distId :: (deletePhase env distId e1 fuel).2 := by
    unfold delete_cloudfront_distribution
    rw [h]
    rfl
  rw [hrun, hrest]
  refine ⟨rfl, ?_⟩
  intro e'
  simp only [List.mem_cons]
  rintro (hmem | hmem | hmem)
  · exact CFCall.noConfusion hmem
  · exact CFCall.noConfusion hmem
  · exact CFCall.noConfusion (hall _ hmem)

/-- C8 witness: the theorem applied to the concrete already-disabled
distribution. -/
theorem already_disabled_skips_update_witness :
    (delete_cloudfront_distribution "D" "E0" envCFDisabled 5).2.take 2 =
      [CFCall.getDistributionConfig "D", CFCall.deleteDistribution "D" "E1"] ∧
    CFCall.updateDistribution "D" "E2" ∉
      (delete_cloudfront_distribution "D" "E0" envCFDisabled 5).2 :=
  ⟨(already_disabled_skips_update envCFDisabled "D" "E0" "E1" 5 rfl).1,
   (already_disabled_skips_update envCFDisabled "D" "E0" "E1" 5 rfl).2 "E2"⟩

/-! ## Claim C9 -/

/-- C9: a `NoSuchBucket` ClientError at the first collaborator call of
either bucket stage — the bucket is absent at call time — is absorbed:
both `empty_s3_bucket` and `delete_s3_bucket` return success. -/
theorem absent_bucket_idempotent (e1 : S3Env) (e2 : DelEnv) :
    (e1.versioningResp = .error S3Err.noSuchBucket → (empty_s3_bucket e1).1 = true) ∧
    (e2.deleteResp = .error S3Err.noSuchBucket → delete_s3_bucket e2 = true) := by
  constructor
  · intro h; simp [empty_s3_bucket, h]
  · intro h; simp [delete_s3_bucket, h]

/-- C9 witness: both stages succeed on the concrete absent bucket. -/
theorem absent_bucket_idempotent_witness :
    (empty_s3_bucket envS3Missing).1 = true ∧ delete_s3_bucket envDelMissing = true :=
  ⟨(absent_bucket_idempotent envS3Missing envDelMissing).1 rfl,
   (absent_bucket_idempotent envS3Missing envDelMissing).2 rfl⟩

/-! ## Claim C10 -/

/-- C10: when `list_distributions` itself raises, the search returns `None`
— indistinguishable from the zero-match outcome — and the orchestrator,
once past the confirmation gate, proceeds to the bucket-only teardown: the
trace contains no CDN stage and does contain the emptying stage. -/
theorem listing_error_bucket_only (env : MainEnv) (e : FindErr)
    (hl : env.findEnv.listing = .error e)
    (hb : resolvedBucket env ≠ "") (hr : resolvedRegion env ≠ "")
    (hc : confirm_deletion (resolvedBucket env) ((mainFind env).map Prod.fst)
            env.confirmInput = true) :
    mainFind env = none ∧
    main env = some (bucketPhase env []) ∧
    (∀ b, StageCall.cfStage b ∉ (bucketPhase env []).2) ∧
    StageCall.emptyStage (empty_s3_bucket env.s3Env).1 ∈ (bucketPhase env []).2 := by
  have hfind : mainFind env = none := by
    unfold mainFind find_cloudfront_for_s3_bucket
    rw [hl]
  refine ⟨hfind, ?_, ?_, ?_⟩
  · unfold main
    rw [if_neg hb, if_neg hr, if_pos hc, hfind]
  · intro b
    unfold bucketPhase
    by_cases he : (empty_s3_bucket env.s3Env).1 = true <;> simp [he]
  · unfold bucketPhase
    by_cases he : (empty_s3_bucket env.s3Env).1 = true
    · rw [he]; simp [he]
    · rw [Bool.not_eq_true] at he; rw [he]; simp [he]

/-- C10 witness: the theorem applied to the concrete failing listing. -/
theorem listing_error_bucket_only_witness :
    mainFind envMainListErr = none ∧
    main envMainListErr = some (bucketPhase envMainListErr []) ∧
    StageCall.cfStage true ∉ (bucketPhase envMainListErr []).2 ∧
    StageCall.emptyStage (empty_s3_bucket envMainListErr.s3Env).1 ∈
      (bucketPhase envMainListErr []).2 := by
  obtain ⟨h1, h2, h3, h4⟩ :=
    listing_error_bucket_only envMainListErr () rfl (by decide) (by decide) (by decide)
  exact ⟨h1, h2, h3 true, h4⟩

end Cleanup
